import Mathlib

/-
Verification development for the SheerID batch-verification client
(sheerid_verifier.py and the VerifyWorker of sheerid_gui.py).

The Python code is shallowly embedded: every network interaction is a
parameter (an environment function), JSON objects are restricted to the
five fields the client ever reads, and the mutable verifier object
(self.csrf_token plus an instrumentation counter of token fetches) is
threaded explicitly as a state value.
-/

/-- A JSON object as the client observes it: the only keys ever read are
verificationId, currentStep, message, checkToken and status.  Synthetic
error dictionaries built by the client use the status and message keys. -/
structure JsonObj where
  verificationId : Option String
  currentStep : Option String
  message : Option String
  checkToken : Option String
  status : Option String
deriving DecidableEq, Repr

/-- The synthetic error dictionaries the client builds, for example
the pair with status error and a message. -/
def errJson (msg : String) : JsonObj :=
  ⟨none, none, some msg, none, some "error"⟩

/-- The results dictionary of verify_batch: an insertion-ordered map from
verification id to JSON result, embedded as an association list without
duplicate keys. -/
abbrev ResMap := List (String × JsonObj)

/-- Dictionary lookup. -/
def findRes : ResMap → String → Option JsonObj
  | [], _ => none
  | (k, v) :: rest, key => if k = key then some v else findRes rest key

/-- Dictionary assignment: overwrite in place if the key is present,
append at the end otherwise (Python dict semantics). -/
def upsert : ResMap → String → JsonObj → ResMap
  | [], k, v => [(k, v)]
  | (k', v') :: rest, k, v =>
    if k' = k then (k, v) :: rest else (k', v') :: upsert rest k v

/-- The dict comprehension building an all-error map over a batch, as in
the token-failure returns of verify_batch. -/
def mkErrMap (vids : List String) (msg : String) : ResMap :=
  vids.foldl (fun acc v => upsert acc v (errJson msg)) []

/-- The exception handler of verify_batch: for every id of the batch not
already in results, record an error carrying the exception text. -/
def fillMissing (vids : List String) (msg : String) (r : ResMap) : ResMap :=
  vids.foldl (fun acc v => if (findRes acc v).isSome then acc else upsert acc v (errJson msg)) r

/-- The batch partition of VerifyWorker.run: the list comprehension
taking tasks in slices of five, in input order. -/
def makeBatches (l : List String) : List (List String) :=
  match l with
  | [] => []
  | x :: xs => ((x :: xs).take 5) :: makeBatches ((x :: xs).drop 5)
termination_by l.length
decreasing_by simp [List.length_drop]; omega

/-- The mutable state of a SheerIDVerifier object: the cached CSRF token
(self.csrf_token), plus a counter of calls to the token fetcher so that
the fetch environment can be indexed per attempt. -/
structure VerifierState where
  csrfToken : Option String
  fetchCount : Nat
deriving DecidableEq, Repr

/-- Outcome of one iteration of the status-poll loop: the request/JSON
decoding raised, or a JSON body was obtained. -/
inductive PollOutcome where
  | exn (m : String)
  | resp (j : JsonObj)
deriving DecidableEq, Repr

/-- One element delivered by resp.iter_lines: a decoded line, or the
point where iteration raised a transport exception. -/
inductive LineItem where
  | exn (m : String)
  | line (s : String)
deriving DecidableEq, Repr

/-- Outcome of one POST to /api/batch: the request raised, or a response
arrived with a status code and a body stream. -/
inductive SubmitOutcome where
  | exn (m : String)
  | resp (code : Nat) (items : List LineItem)
deriving DecidableEq, Repr

/-- Outcome of the POST to /api/cancel: the request raised, the body was
valid JSON, or the body failed JSON decoding (with its text). -/
inductive CancelOutcome where
  | exn (m : String)
  | respJson (j : JsonObj)
  | respBadJson (txt : String)
deriving DecidableEq, Repr

/-- The currentStep test used for terminal records:
status == success or status == error. -/
def stepTerminal (j : JsonObj) : Bool :=
  j.currentStep == some "success" || j.currentStep == some "error"

/-- A result the GUI reads as terminal: either a record whose currentStep
is success or error, or a synthetic dictionary whose status key is error. -/
def isTerminal (j : JsonObj) : Bool :=
  stepTerminal j || j.status == some "error"

/-- A poll iteration outcome that is a response but not a terminal one. -/
def nonTerminalResp : PollOutcome → Bool
  | .exn _ => false
  | .resp j => !stepTerminal j

/-- The falsy test of Python on data.get("verificationId"): the id is
usable only when present and non-empty. -/
def getVid (j : JsonObj) : Option String :=
  match j.verificationId with
  | some v => if v = "" then none else some v
  | none => none

/-- Python startswith, over the character lists of the strings (kept
structurally recursive so that concrete streams evaluate). -/
def strStartsWith (s pre : String) : Bool :=
  pre.data.isPrefixOf s.data

/-- The Python slice line[5:], generalized to any start index. -/
def strDrop (s : String) (n : Nat) : String :=
  ⟨s.data.drop n⟩

/-- Python strip: remove whitespace from both ends. -/
def strTrim (s : String) : String :=
  ⟨((s.data.dropWhile Char.isWhitespace).reverse.dropWhile Char.isWhitespace).reverse⟩

/-- The loop body of _poll_status: at most the given fuel of iterations
(the source fixes fuel 60), indexed from iteration i; an exception ends
the poll with a synthetic error, a terminal response is returned as is,
otherwise the check token rotates when the response carries one.  Returns
the result together with the number of iterations consumed so far. -/
def pollLoop (env : Nat → String → PollOutcome) : Nat → Nat → String → JsonObj × Nat
  | i, 0, _ => (errJson "Polling timeout (120s)", i)
  | i, fuel + 1, tok =>
    match env i tok with
    | .exn m => (errJson ("Polling exception: " ++ m), i + 1)
    | .resp j =>
      if stepTerminal j then (j, i + 1)
      else
        pollLoop env (i + 1) fuel
          (match j.checkToken with
           | some t => t
           | none => tok)

/-- _poll_status: sixty iterations starting from iteration zero. -/
def pollStatus (env : Nat → String → PollOutcome) (tok : String) : JsonObj × Nat :=
  pollLoop env 0 60 tok

/-- _handle_api_response: dispatch one parsed record into the results
dictionary; a pending record carrying a checkToken hands the id to the
poller (the hand-off is recorded in a poll log), a terminal record is
stored verbatim, and anything else is ignored. -/
def handleApiResponse (poll : String → Nat → String → PollOutcome) (j : JsonObj)
    (r : ResMap) (plog : List (String × String)) : ResMap × List (String × String) :=
  match getVid j with
  | none => (r, plog)
  | some vid =>
    if j.currentStep == some "pending" && j.checkToken.isSome then
      let ct := j.checkToken.getD ""
      (upsert r vid (pollStatus (poll ct) ct).1, plog ++ [(vid, ct)])
    else if stepTerminal j then
      (upsert r vid j, plog)
    else (r, plog)

/-- The SSE-parsing loop of verify_batch over the iterated lines: blank
lines are skipped, only lines starting with the data marker are decoded
(payload is the line minus the first five characters, stripped), payloads
that fail to parse are skipped, and a transport exception while iterating
aborts the loop, reporting its message as the third component. -/
def processItems (parse : String → Option JsonObj) (poll : String → Nat → String → PollOutcome) :
    List LineItem → ResMap → List (String × String) →
    ResMap × List (String × String) × Option String
  | [], r, plog => (r, plog, none)
  | .exn m :: _, r, plog => (r, plog, some m)
  | .line s :: rest, r, plog =>
    if s = "" then processItems parse poll rest r plog
    else if strStartsWith s "data:" then
      match parse (strTrim (strDrop s 5)) with
      | some j =>
        let rl := handleApiResponse poll j r plog
        processItems parse poll rest rl.1 rl.2
      | none => processItems parse poll rest r plog
    else processItems parse poll rest r plog

/-- The network environment one call to verify_batch can observe: the
outcome of the first POST to /api/batch, the outcome of the retry POST
if one happens, the JSON decoder, and the poll environment (indexed by
the initial check token of the hand-off). -/
structure BatchEnv where
  firstSubmit : SubmitOutcome
  retrySubmit : SubmitOutcome
  parse : String → Option JsonObj
  poll : String → Nat → String → PollOutcome

/-- What one call to verify_batch produces: the results dictionary, the
verifier state after the call, the log of poller hand-offs (id and check
token), and the number of POSTs made to /api/batch. -/
structure BatchOut where
  results : ResMap
  state : VerifierState
  pollLog : List (String × String)
  submits : Nat
deriving DecidableEq, Repr

/-- The tail of verify_batch once a response stream is at hand: parse the
stream; if iterating raised, every id of the batch not already in the
results dictionary is marked error with the exception text. -/
def finishStream (env : BatchEnv) (st : VerifierState) (vids : List String)
    (items : List LineItem) (subs : Nat) : BatchOut :=
  match processItems env.parse env.poll items [] [] with
  | (r, plog, none) => ⟨r, st, plog, subs⟩
  | (r, plog, some m) => ⟨fillMissing vids m r, st, plog, subs⟩

/-- The submission half of verify_batch, entered with a token in hand:
POST the batch; on a 403/401 status refresh the token once and, if the
refresh succeeds, resubmit the identical batch once and process whatever
stream comes back (its status code is never inspected); if the refresh
fails every id is marked error Token expired; a transport exception on
either POST marks every id with the exception text. -/
def verifyBatchSubmit (fetch : Nat → Option String) (env : BatchEnv)
    (st : VerifierState) (vids : List String) : BatchOut :=
  match env.firstSubmit with
  | .exn m => ⟨fillMissing vids m [], st, [], 1⟩
  | .resp code items =>
    if code = 403 ∨ code = 401 then
      match fetch st.fetchCount with
      | some t =>
        let st2 : VerifierState := ⟨some t, st.fetchCount + 1⟩
        match env.retrySubmit with
        | .exn m => ⟨fillMissing vids m [], st2, [], 2⟩
        | .resp _ items2 => finishStream env st2 vids items2 2
      | none =>
        ⟨mkErrMap vids "Token expired", ⟨st.csrfToken, st.fetchCount + 1⟩, [], 1⟩
    else finishStream env st vids items 1

/-- SheerIDVerifier.verify_batch: ensure a CSRF token (on a failed fetch
every id of the batch is marked error and nothing is submitted), then
submit the batch. -/
def verifyBatch (fetch : Nat → Option String) (env : BatchEnv)
    (st : VerifierState) (vids : List String) : BatchOut :=
  match st.csrfToken with
  | none =>
    match fetch st.fetchCount with
    | none =>
      ⟨mkErrMap vids "Failed to get CSRF token", ⟨none, st.fetchCount + 1⟩, [], 0⟩
    | some t => verifyBatchSubmit fetch env ⟨some t, st.fetchCount + 1⟩ vids
  | some _ => verifyBatchSubmit fetch env st vids

/-- The batch loop of VerifyWorker.run: before each batch the stop flag
is consulted (stop i is true when is_running is false at the check before
the i-th batch); a stop breaks the loop, otherwise the batch is verified
and the verifier state threads into the next batch.  The processed list
pairs each executed batch index with its output. -/
def workerRunAux (fetch : Nat → Option String) (benv : Nat → BatchEnv) (stop : Nat → Bool) :
    Nat → VerifierState → List (List String) → List (Nat × BatchOut)
  | _, _, [] => []
  | i, st, b :: rest =>
    if stop i then []
    else
      let out := verifyBatch fetch (benv i) st b
      (i, out) :: workerRunAux fetch benv stop (i + 1) out.state rest

/-- VerifyWorker.run: a fresh verifier (no cached token), the task list
partitioned into batches of five, then the sequential batch loop. -/
def workerRun (fetch : Nat → Option String) (benv : Nat → BatchEnv) (stop : Nat → Bool)
    (vids : List String) : List (Nat × BatchOut) :=
  workerRunAux fetch benv stop 0 ⟨none, 0⟩ (makeBatches vids)

/-- The request half of cancel_verification, entered with a token. -/
def cancelRequest (cenv : CancelOutcome) (st : VerifierState) (vid : String) :
    JsonObj × VerifierState × Nat :=
  match cenv with
  | .exn m => (errJson m, st, 1)
  | .respJson j => (j, st, 1)
  | .respBadJson txt => (errJson ("Invalid JSON: " ++ txt), st, 1)

/-- SheerIDVerifier.cancel_verification: ensure a token (on a failed
fetch return the No CSRF Token error without any request), then issue the
single cancel POST and return the body verbatim when it is valid JSON,
an Invalid JSON error when it is not, and the exception text when the
request raised.  The third component counts the cancel POSTs issued. -/
def cancelVerification (fetch : Nat → Option String) (cenv : CancelOutcome)
    (st : VerifierState) (vid : String) : JsonObj × VerifierState × Nat :=
  match st.csrfToken with
  | none =>
    match fetch st.fetchCount with
    | none => (errJson "No CSRF Token", ⟨none, st.fetchCount + 1⟩, 0)
    | some t => cancelRequest cenv ⟨some t, st.fetchCount + 1⟩ vid
  | some _ => cancelRequest cenv st vid

/-- The state the GUI window holds that is relevant to cancellation: the
window-owned verifier used by cancel_selected, next to the result records
accumulated by a running VerifyWorker (which cancel never touches). -/
structure GuiState where
  windowVerifier : VerifierState
  workerResults : List (Nat × BatchOut)

/-- One cancel action of cancel_selected: call cancel_verification on
the window verifier; the worker results are not consulted or changed. -/
def guiCancel (fetch : Nat → Option String) (cenv : CancelOutcome)
    (g : GuiState) (vid : String) : JsonObj × GuiState :=
  let out := cancelVerification fetch cenv g.windowVerifier vid
  (out.1, ⟨out.2.1, g.workerResults⟩)

/-- The per-line condition of claim C10, decidably: the item is a decoded
line and, if it parses to a record for the identifier v, that record has
currentStep pending and carries no checkToken. -/
def dropsVid (parse : String → Option JsonObj) (v : String) : LineItem → Bool
  | .exn _ => false
  | .line s =>
    if strStartsWith s "data:" then
      match parse (strTrim (strDrop s 5)) with
      | some j =>
        if getVid j == some v then j.currentStep == some "pending" && j.checkToken.isNone
        else true
      | none => true
    else true

/-- A pending record for id a with no check token (concrete test data). -/
def pendNoTokJson : JsonObj := ⟨some "a", some "pending", some "", none, none⟩

/-- A success record for id a (concrete test data). -/
def sucAJson : JsonObj := ⟨some "a", some "success", some "ok", none, none⟩

/-- A success record for id b (concrete test data). -/
def sucBJson : JsonObj := ⟨some "b", some "success", some "ok", none, none⟩

/-- A concrete JSON decoder for the test streams. -/
def exParse (s : String) : Option JsonObj :=
  if s = "PEND" then some pendNoTokJson
  else if s = "SUCA" then some sucAJson
  else if s = "SUCB" then some sucBJson
  else none

/-- A poll environment that is never reached in the test scenarios. -/
def nullPoll : String → Nat → String → PollOutcome := fun _ _ _ => .exn "unused"

/-- A poll environment whose every response is pending. -/
def pendPoll : Nat → String → PollOutcome := fun _ _ => .resp pendNoTokJson

/-- A token fetcher that always fails. -/
def fetchNone : Nat → Option String := fun _ => none

/-- A token fetcher that always succeeds. -/
def fetchSome : Nat → Option String := fun _ => some "T"

/-- A token fetcher failing on the first attempt and succeeding after. -/
def fetchSecond : Nat → Option String := fun n => if n = 0 then none else some "T"

/-- A verifier state with a cached token. -/
def stTok : VerifierState := ⟨some "T0", 0⟩

/-- A fresh verifier state: no token, no fetches yet. -/
def stNew : VerifierState := ⟨none, 0⟩

/-- Environment: submission succeeds, the stream holds one pending record
without check token for id a. -/
def envPendDrop : BatchEnv := ⟨.resp 200 [.line "data: PEND"], .resp 200 [], exParse, nullPoll⟩

/-- Environment: first submission and resubmission both answer 401 with
an empty stream. -/
def envAuthTwice : BatchEnv := ⟨.resp 401 [], .resp 401 [], exParse, nullPoll⟩

/-- Environment: the stream delivers a success for id a, then iterating
raises an exception. -/
def envMidExn : BatchEnv := ⟨.resp 200 [.line "data: SUCA", .exn "boom"], .resp 200 [], exParse, nullPoll⟩

/-- Environment: submission succeeds with a success record for id b. -/
def envSucB : BatchEnv := ⟨.resp 200 [.line "data: SUCB"], .resp 200 [], exParse, nullPoll⟩

/-- Environment: the first submission raises a transport exception. -/
def envSubmitExn : BatchEnv := ⟨.exn "timeout", .resp 200 [], exParse, nullPoll⟩

/-- A stop flag that turns on from batch index two. -/
def stopAtTwo : Nat → Bool := fun i => decide (2 ≤ i)

/-- A stop flag that is never raised. -/
def noStop : Nat → Bool := fun _ => false

/-- Every value stored in a results dictionary is terminal. -/
def allTerminal (r : ResMap) : Prop :=
  ∀ v j, findRes r v = some j → isTerminal j = true

/-- C2 — Batch partitioning: for an input of length N, the worker builds
exactly ceil(N/5) batches, each of size at most five, and their
concatenation is exactly the input list (hence original order, no
duplicates, no omissions). -/
theorem batching_partition (tasks : List String) :
    (makeBatches tasks).length = (tasks.length + 4) / 5
    ∧ (makeBatches tasks).all (fun b => decide (b.length ≤ 5)) = true
    ∧ (makeBatches tasks).flatten = tasks := by
  induction tasks using makeBatches.induct with
  | case1 => simp [makeBatches]
  | case2 x xs ih =>
    obtain ⟨ihlen, ihall, ihjoin⟩ := ih
    refine ⟨?_, ?_, ?_⟩
    · rw [makeBatches]
      simp only [List.length_cons, ihlen, List.length_drop]
      omega
    · rw [makeBatches]
      simp only [List.all_cons, ihall, Bool.and_true]
      simp [List.length_take]
    · rw [makeBatches]
      rw [List.flatten_cons, ihjoin]
      exact List.take_append_drop 5 (x :: xs)

/-- Lookup after a dictionary assignment: the assigned key reads the new
value, every other key is unchanged. -/
theorem findRes_upsert (r : ResMap) (k key : String) (v : JsonObj) :
    findRes (upsert r k v) key = if k = key then some v else findRes r key := by
  induction r with
  | nil => simp [upsert, findRes]
  | cons p rest ih =>
    obtain ⟨k', v'⟩ := p
    by_cases hk : k' = k <;> by_cases hkey : k = key <;>
      simp_all [upsert, findRes]

/-- The poll loop consumes at most its fuel. -/
theorem pollLoop_count (env : Nat → String → PollOutcome) (fuel : Nat) :
    ∀ (i : Nat) (tok : String), (pollLoop env i fuel tok).2 ≤ i + fuel := by
  induction fuel with
  | zero => intro i tok; simp [pollLoop]
  | succ n ih =>
    intro i tok
    simp only [pollLoop]
    cases env i tok with
    | exn m => simp
    | resp j =>
      by_cases h : stepTerminal j
      · simp [h]
      · simp only [h, if_neg Bool.false_ne_true]
        have := ih (i + 1) (match j.checkToken with | some t => t | none => tok)
        omega

/-- The poll loop always returns a terminal result. -/
theorem pollLoop_terminal (env : Nat → String → PollOutcome) (fuel : Nat) :
    ∀ (i : Nat) (tok : String), isTerminal (pollLoop env i fuel tok).1 = true := by
  induction fuel with
  | zero => intro i tok; simp [pollLoop, isTerminal, errJson, stepTerminal]
  | succ n ih =>
    intro i tok
    simp only [pollLoop]
    cases env i tok with
    | exn m => simp [isTerminal, errJson, stepTerminal]
    | resp j =>
      by_cases h : stepTerminal j
      · simp [h, isTerminal]
      · simp only [h, if_neg Bool.false_ne_true]
        exact ih (i + 1) _

/-- If every iteration in reach answers a non-terminal response, the poll
loop exhausts its fuel and reports the synthetic timeout error. -/
theorem pollLoop_timeout (env : Nat → String → PollOutcome) (fuel : Nat) :
    ∀ (i : Nat) (tok : String),
    (∀ k t, i ≤ k → k < i + fuel → nonTerminalResp (env k t) = true) →
    (pollLoop env i fuel tok).1 = errJson "Polling timeout (120s)" := by
  induction fuel with
  | zero => intro i tok _; simp [pollLoop]
  | succ n ih =>
    intro i tok h
    have hi := h i tok (Nat.le_refl i) (by omega)
    simp only [pollLoop]
    cases henv : env i tok with
    | exn m => rw [henv] at hi; simp [nonTerminalResp] at hi
    | resp j =>
      rw [henv] at hi
      simp only [nonTerminalResp, Bool.not_eq_true'] at hi
      simp only [hi, if_neg Bool.false_ne_true]
      exact ih (i + 1) _ (fun k t hk1 hk2 => h k t (by omega) (by omega))

/-- C5 — Poll timeout bound: _poll_status runs at most sixty iterations,
always ends with a terminal result, and if all sixty responses are
non-terminal it returns the synthetic error whose message indicates the
polling timeout. -/
theorem poll_timeout_spec (env : Nat → String → PollOutcome) (tok : String) :
    (pollStatus env tok).2 ≤ 60
    ∧ isTerminal (pollStatus env tok).1 = true
    ∧ ((∀ i t, i < 60 → nonTerminalResp (env i t) = true) →
        (pollStatus env tok).1 = errJson "Polling timeout (120s)") := by
  refine ⟨?_, pollLoop_terminal env 60 0 tok, ?_⟩
  · have h := pollLoop_count env 60 0 tok
    simpa [pollStatus] using h
  · intro h
    exact pollLoop_timeout env 60 0 tok (fun k t _ hk => h k t (by omega))

/-- Witness for C5: an environment answering pending forever makes the
poll end in the timeout error within sixty iterations. -/
theorem poll_timeout_spec_witness :
    (pollStatus pendPoll "t0").1 = errJson "Polling timeout (120s)"
    ∧ (pollStatus pendPoll "t0").2 ≤ 60 :=
  ⟨(poll_timeout_spec pendPoll "t0").2.2 (fun i t _ => rfl),
   (poll_timeout_spec pendPoll "t0").1⟩

/-- C8 — Stream-noise tolerance: a line that does not start with the
data marker (blank lines included), or whose payload fails JSON parsing,
leaves the results, the poll log and the rest of the stream processing
exactly as if the line were absent: it is skipped, aborts nothing and
produces no error result. -/
theorem stream_noise_skipped (parse : String → Option JsonObj)
    (poll : String → Nat → String → PollOutcome) (s : String) (rest : List LineItem)
    (r : ResMap) (plog : List (String × String))
    (h : strStartsWith s "data:" = false ∨ parse (strTrim (strDrop s 5)) = none) :
    processItems parse poll (.line s :: rest) r plog
      = processItems parse poll rest r plog := by
  by_cases hs : s = ""
  · simp [processItems, hs]
  · rcases h with h | h
    · simp [processItems, hs, h]
    · by_cases hpre : strStartsWith s "data:"
      · simp [processItems, hs, hpre, h]
      · simp [processItems, hs, hpre]

/-- Witness for C8: a non-data line and a data line with a non-JSON
payload are both skipped. -/
theorem stream_noise_skipped_witness :
    processItems exParse nullPoll [LineItem.line "retry: 100"] [] []
      = processItems exParse nullPoll [] [] []
    ∧ processItems exParse nullPoll [LineItem.line "data: what"] [] []
      = processItems exParse nullPoll [] [] [] :=
  ⟨stream_noise_skipped exParse nullPoll "retry: 100" [] [] [] (Or.inl (by decide)),
   stream_noise_skipped exParse nullPoll "data: what" [] [] [] (Or.inr (by decide))⟩

/-- C9 — Cancellation behaviour: cancel_verification first ensures a
token (failing with the No CSRF Token error and zero requests when the
fetch fails), otherwise issues exactly one cancel request and returns the
server body verbatim when it is valid JSON, an error result carrying the
exception text when the request raised, and an Invalid JSON error when
decoding fails; and the cancel action of the window never changes the
result records of a running worker. -/
theorem cancel_verification_spec (fetch : Nat → Option String) (cenv : CancelOutcome)
    (st : VerifierState) (vid : String) (g : GuiState) :
    (st.csrfToken = none → fetch st.fetchCount = none →
       cancelVerification fetch cenv st vid
         = (errJson "No CSRF Token", ⟨none, st.fetchCount + 1⟩, 0))
    ∧ ((st.csrfToken.isSome ∨ (fetch st.fetchCount).isSome) →
        (cancelVerification fetch cenv st vid).2.2 = 1
        ∧ (∀ j, cenv = .respJson j → (cancelVerification fetch cenv st vid).1 = j)
        ∧ (∀ m, cenv = .exn m → (cancelVerification fetch cenv st vid).1 = errJson m)
        ∧ (∀ t, cenv = .respBadJson t →
            (cancelVerification fetch cenv st vid).1 = errJson ("Invalid JSON: " ++ t)))
    ∧ (guiCancel fetch cenv g vid).2.workerResults = g.workerResults := by
  refine ⟨?_, ?_, rfl⟩
  · intro h1 h2
    simp [cancelVerification, h1, h2]
  · intro h
    have hreq : ∃ st1, cancelVerification fetch cenv st vid = cancelRequest cenv st1 vid := by
      cases hst : st.csrfToken with
      | some t => exact ⟨st, by simp [cancelVerification, hst]⟩
      | none =>
        cases hf : fetch st.fetchCount with
        | some t => exact ⟨⟨some t, st.fetchCount + 1⟩, by simp [cancelVerification, hst, hf]⟩
        | none =>
          rcases h with h' | h'
          · rw [hst] at h'; simp at h'
          · rw [hf] at h'; simp at h'
    obtain ⟨st1, heq⟩ := hreq
    rw [heq]
    cases cenv <;> simp [cancelRequest]

/-- Witness for C9: with a fresh verifier and a fetch that succeeds, a
valid JSON body is returned verbatim with exactly one request; with a
fetch that fails, the No CSRF Token error is returned without a request. -/
theorem cancel_verification_spec_witness :
    (cancelVerification fetchSome (.respJson sucAJson) stNew "a").1 = sucAJson
    ∧ (cancelVerification fetchSome (.respJson sucAJson) stNew "a").2.2 = 1
    ∧ cancelVerification fetchNone (.respJson sucAJson) stNew "a"
        = (errJson "No CSRF Token", ⟨none, 1⟩, 0) := by
  have h := cancel_verification_spec fetchSome (.respJson sucAJson) stNew "a" ⟨stNew, []⟩
  have h2 := cancel_verification_spec fetchNone (.respJson sucAJson) stNew "a" ⟨stNew, []⟩
  exact ⟨(h.2.1 (Or.inr (by decide))).2.1 sucAJson rfl,
         (h.2.1 (Or.inr (by decide))).1,
         h2.1 rfl rfl⟩

/-- Counterexample for C1: a transport-error-free submission whose stream
answers only a pending record without check token for the submitted id a
makes verify_batch return a map with no entry at all for a, refuting the
claim that every submitted identifier ends with a terminal entry in the
returned map regardless of the stream records. -/
theorem completion_invariant_counterexample :
    findRes (verifyBatch fetchSome envPendDrop stTok ["a"]).results "a" = none := by
  decide

/-- Counterexample for C3: the first submission answers 401, the token
refresh succeeds, the resubmission answers 401 again with an empty body;
the code never inspects the retry status, so the batch id a is not
marked with any token-expiry error: the returned map is empty, refuting
the claim that an authentication failure of the resubmission marks every
identifier of the batch as error. -/
theorem auth_retry_counterexample :
    (verifyBatch fetchSome envAuthTwice stTok ["a"]).results = []
    ∧ (verifyBatch fetchSome envAuthTwice stTok ["a"]).submits = 2 := by
  decide

/-- Counterexample for C4: the stream delivers a success record for id a
and then raises; a keeps its success result and only b is marked error,
refuting the claim that a transport failure during stream consumption
marks every identifier of the batch as error. -/
theorem transport_failure_counterexample :
    findRes (verifyBatch fetchSome envMidExn stTok ["a", "b"]).results "a" = some sucAJson
    ∧ sucAJson.currentStep = some "success"
    ∧ sucAJson.status = none
    ∧ findRes (verifyBatch fetchSome envMidExn stTok ["a", "b"]).results "b"
        = some (errJson "boom") := by
  decide

/-- Counterexample for C6: the first token acquisition of the job fails,
yet the job does not abort: the second batch re-attempts the fetch,
succeeds, and is submitted (one POST, and id b even completes with
success), refuting the claim that a first-acquisition failure prevents
identifiers of later batches from being submitted. -/
theorem first_token_failure_counterexample :
    (workerRunAux fetchSecond (fun _ => envSucB) noStop 0 stNew [["a"], ["b"]]).map
        (fun p => (p.1, p.2.submits)) = [(0, 0), (1, 1)]
    ∧ (workerRunAux fetchSecond (fun _ => envSucB) noStop 0 stNew [["a"], ["b"]]).map
        (fun p => p.2.results)
        = [[("a", errJson "Failed to get CSRF token")], [("b", sucBJson)]] := by
  decide

/-- With no stop request, the worker loop processes every batch. -/
theorem workerRunAux_noStop_length (fetch : Nat → Option String) (benv : Nat → BatchEnv) :
    ∀ (bs : List (List String)) (i : Nat) (st : VerifierState),
    (workerRunAux fetch benv noStop i st bs).length = bs.length := by
  intro bs
  induction bs with
  | nil => intro i st; simp [workerRunAux]
  | cons b rest ih =>
    intro i st
    simp only [workerRunAux, noStop, Bool.false_eq_true, if_false, List.length_cons]
    rw [ih (i + 1) _]

/-- The exception fill never overwrites an existing entry. -/
theorem findRes_fillMissing_of_some (vids : List String) (msg : String) :
    ∀ (r : ResMap) (v : String) (j : JsonObj), findRes r v = some j →
    findRes (fillMissing vids msg r) v = some j := by
  induction vids with
  | nil => intro r v j h; simpa [fillMissing] using h
  | cons x xs ih =>
    intro r v j h
    have step : fillMissing (x :: xs) msg r
        = fillMissing xs msg (if (findRes r x).isSome then r else upsert r x (errJson msg)) := rfl
    rw [step]
    by_cases hx : (findRes r x).isSome
    · rw [if_pos hx]; exact ih r v j h
    · rw [if_neg hx]
      apply ih
      rw [findRes_upsert]
      by_cases hxv : x = v
      · subst hxv; rw [h] at hx; simp at hx
      · rw [if_neg hxv]; exact h

/-- The exception fill marks every id of the batch that is still missing
with the error carrying the exception text. -/
theorem findRes_fillMissing_of_none (vids : List String) (msg : String) :
    ∀ (r : ResMap) (v : String), v ∈ vids → findRes r v = none →
    findRes (fillMissing vids msg r) v = some (errJson msg) := by
  induction vids with
  | nil => intro r v hmem _; exact absurd hmem (List.not_mem_nil v)
  | cons x xs ih =>
    intro r v hmem h
    have step : fillMissing (x :: xs) msg r
        = fillMissing xs msg (if (findRes r x).isSome then r else upsert r x (errJson msg)) := rfl
    rw [step]
    by_cases hxv : x = v
    · subst hxv
      rw [if_neg (by simp [h])]
      apply findRes_fillMissing_of_some
      rw [findRes_upsert, if_pos rfl]
    · rcases List.mem_cons.mp hmem with heq | hmem'
      · exact absurd heq.symm hxv
      · by_cases hx : (findRes r x).isSome
        · rw [if_pos hx]; exact ih r v hmem' h
        · rw [if_neg hx]
          apply ih _ v hmem'
          rw [findRes_upsert, if_neg hxv]
          exact h

/-- C4 amended — Transport-failure handling: with a cached token, a
transport exception on the submit request marks every id of the batch
with a terminal error carrying the exception text (one POST, no retry);
an exception while consuming the stream preserves every result already
recorded and marks exactly the still-missing ids of the batch with the
exception error; and the worker loop always continues with the remaining
batches, processing all of them when no stop is requested. -/
theorem transport_failure_amended (fetch : Nat → Option String) (env : BatchEnv)
    (st : VerifierState) (vids : List String)
    (htok : st.csrfToken.isSome = true) :
    (∀ m, env.firstSubmit = .exn m →
       (verifyBatch fetch env st vids).submits = 1
       ∧ ∀ v, v ∈ vids → findRes (verifyBatch fetch env st vids).results v = some (errJson m))
    ∧ (∀ code items r plog m, env.firstSubmit = .resp code items →
       code ≠ 403 → code ≠ 401 →
       processItems env.parse env.poll items [] [] = (r, plog, some m) →
       (verifyBatch fetch env st vids).results = fillMissing vids m r
       ∧ (verifyBatch fetch env st vids).submits = 1
       ∧ (∀ v j, findRes r v = some j →
           findRes (verifyBatch fetch env st vids).results v = some j)
       ∧ (∀ v, v ∈ vids → findRes r v = none →
           findRes (verifyBatch fetch env st vids).results v = some (errJson m)))
    ∧ (∀ (benv : Nat → BatchEnv) (bs : List (List String)) (i : Nat) (st' : VerifierState),
        (workerRunAux fetch benv noStop i st' bs).length = bs.length) := by
  obtain ⟨tk, ht⟩ := Option.isSome_iff_exists.mp htok
  have hvb : verifyBatch fetch env st vids = verifyBatchSubmit fetch env st vids := by
    unfold verifyBatch; rw [ht]
  refine ⟨?_, ?_, ?_⟩
  · intro m hm
    rw [hvb]
    unfold verifyBatchSubmit
    simp only [hm]
    exact ⟨by trivial, fun v hv => findRes_fillMissing_of_none vids m [] v hv rfl⟩
  · intro code items r plog m hm hc1 hc2 hp
    have hfin : verifyBatch fetch env st vids
        = ⟨fillMissing vids m r, st, plog, 1⟩ := by
      rw [hvb]
      unfold verifyBatchSubmit
      simp only [hm]
      rw [if_neg (by simp [hc1, hc2])]
      unfold finishStream
      rw [hp]
    rw [hfin]
    refine ⟨rfl, rfl, ?_, ?_⟩
    · intro v j hj; exact findRes_fillMissing_of_some vids m r v j hj
    · intro v hv hnone; exact findRes_fillMissing_of_none vids m r v hv hnone
  · intro benv bs i st'
    exact workerRunAux_noStop_length fetch benv bs i st'

/-- Witness for C4 amended: a submit exception marks both ids of the
batch with the exception error in exactly one POST. -/
theorem transport_failure_amended_witness :
    (verifyBatch fetchSome envSubmitExn stTok ["a", "b"]).submits = 1
    ∧ findRes (verifyBatch fetchSome envSubmitExn stTok ["a", "b"]).results "b"
        = some (errJson "timeout") := by
  have h := (transport_failure_amended fetchSome envSubmitExn stTok ["a", "b"]
    (by decide)).1 "timeout" rfl
  exact ⟨h.1, h.2 "b" (by decide)⟩

/-- C3 amended — Authentication-expiry retry: with a cached token, a
401/403 on the submit POST triggers exactly one token re-acquisition
attempt; if it fails, every id of the batch is mapped to the Token
expired error and no resubmission happens (one POST in total); if it
succeeds, exactly one resubmission of the identical batch follows (two
POSTs in total) and its response stream is processed like any normal
response, its status code never inspected — in particular a further
authentication failure of the resubmission is not detected and marks
nothing; a transport exception on the resubmission marks every missing
id with the exception text.  No further retries occur in any case. -/
theorem auth_retry_amended (fetch : Nat → Option String) (env : BatchEnv)
    (st : VerifierState) (vids : List String) (code : Nat) (items : List LineItem)
    (htok : st.csrfToken.isSome = true)
    (hsub : env.firstSubmit = .resp code items)
    (hcode : code = 403 ∨ code = 401) :
    (fetch st.fetchCount = none →
       verifyBatch fetch env st vids
         = ⟨mkErrMap vids "Token expired", ⟨st.csrfToken, st.fetchCount + 1⟩, [], 1⟩)
    ∧ (∀ t m, fetch st.fetchCount = some t → env.retrySubmit = .exn m →
       verifyBatch fetch env st vids
         = ⟨fillMissing vids m [], ⟨some t, st.fetchCount + 1⟩, [], 2⟩)
    ∧ (∀ t c2 items2, fetch st.fetchCount = some t → env.retrySubmit = .resp c2 items2 →
       verifyBatch fetch env st vids
         = finishStream env ⟨some t, st.fetchCount + 1⟩ vids items2 2) := by
  obtain ⟨tk, ht⟩ := Option.isSome_iff_exists.mp htok
  have hvb : verifyBatch fetch env st vids = verifyBatchSubmit fetch env st vids := by
    unfold verifyBatch; rw [ht]
  refine ⟨?_, ?_, ?_⟩
  · intro hf
    rw [hvb]
    unfold verifyBatchSubmit
    simp only [hsub]
    rw [if_pos hcode, hf]
  · intro t m hf hr
    rw [hvb]
    unfold verifyBatchSubmit
    simp only [hsub]
    rw [if_pos hcode, hf]
    simp only [hr]
  · intro t c2 items2 hf hr
    rw [hvb]
    unfold verifyBatchSubmit
    simp only [hsub]
    rw [if_pos hcode, hf]
    simp only [hr]

/-- Witness for C3 amended: a 401 first response with a successful token
refresh leads to exactly one resubmission whose 401 response is processed
as an ordinary stream. -/
theorem auth_retry_amended_witness :
    verifyBatch fetchSome envAuthTwice stTok ["a"]
      = finishStream envAuthTwice ⟨some "T", 1⟩ ["a"] [] 2 := by
  have h := auth_retry_amended fetchSome envAuthTwice stTok ["a"] 401 []
    (by decide) rfl (Or.inr rfl)
  exact h.2.2 "T" 401 [] rfl rfl

/-- If every fetch fails and no token is cached, each processed batch of
the worker loop performs zero POSTs to /api/batch. -/
theorem workerRunAux_no_token (fetch : Nat → Option String) (benv : Nat → BatchEnv)
    (stop : Nat → Bool) (hf : ∀ n, fetch n = none) :
    ∀ (bs : List (List String)) (i : Nat) (st : VerifierState), st.csrfToken = none →
    (workerRunAux fetch benv stop i st bs).all (fun p => p.2.submits == 0) = true := by
  intro bs
  induction bs with
  | nil => intro i st _; simp [workerRunAux]
  | cons b rest ih =>
    intro i st hst
    by_cases hstop : stop i
    · simp [workerRunAux, hstop]
    · have hvb : verifyBatch fetch (benv i) st b
          = ⟨mkErrMap b "Failed to get CSRF token", ⟨none, st.fetchCount + 1⟩, [], 0⟩ := by
        unfold verifyBatch; rw [hst, hf st.fetchCount]
      simp only [workerRunAux, hstop, Bool.false_eq_true, if_false, List.all_cons,
        Bool.and_eq_true, hvb]
      refine ⟨by rfl, ?_⟩
      exact ih (i + 1) _ rfl

/-- C6 amended — First-acquisition token failure: when the very first
token acquisition of a fresh job fails (and no stop is pending), the
first batch performs zero POSTs and all of its ids are mapped to the
CSRF-failure error, but the job does not abort: the loop continues with
the remaining batches, each of which re-attempts a token fetch; only
when every fetch fails does every processed batch go unsubmitted. -/
theorem first_token_failure_amended (fetch : Nat → Option String) (benv : Nat → BatchEnv)
    (stop : Nat → Bool) (b : List String) (rest : List (List String))
    (h0 : fetch 0 = none) (hstop : stop 0 = false) :
    (verifyBatch fetch (benv 0) stNew b).submits = 0
    ∧ (verifyBatch fetch (benv 0) stNew b).results = mkErrMap b "Failed to get CSRF token"
    ∧ workerRunAux fetch benv stop 0 stNew (b :: rest)
        = (0, verifyBatch fetch (benv 0) stNew b)
          :: workerRunAux fetch benv stop 1 (verifyBatch fetch (benv 0) stNew b).state rest
    ∧ ((∀ n, fetch n = none) →
        (workerRunAux fetch benv stop 0 stNew (b :: rest)).all
          (fun p => p.2.submits == 0) = true) := by
  have hvb : verifyBatch fetch (benv 0) stNew b
      = ⟨mkErrMap b "Failed to get CSRF token", ⟨none, 1⟩, [], 0⟩ := by
    simp [verifyBatch, stNew, h0]
  refine ⟨by rw [hvb], by rw [hvb], ?_, ?_⟩
  · simp [workerRunAux, hstop]
  · intro hall
    exact workerRunAux_no_token fetch benv stop hall (b :: rest) 0 stNew rfl

/-- Witness for C6 amended: with a fetcher that always fails, the single
batch of the job performs no POST and the whole run submits nothing. -/
theorem first_token_failure_amended_witness :
    (verifyBatch fetchNone envSucB stNew ["a"]).submits = 0
    ∧ (workerRunAux fetchNone (fun _ => envSucB) noStop 0 stNew [["a"]]).all
        (fun p => p.2.submits == 0) = true := by
  have h := first_token_failure_amended fetchNone (fun _ => envSucB) noStop ["a"] []
    rfl rfl
  exact ⟨h.1, h.2.2.2 (fun n => rfl)⟩

/-- Worker loop with a stop scheduled at batch k: starting at index i
with no stop before k, exactly the batches up to k (or up to the end of
the list) are processed, in order. -/
theorem workerRunAux_upto_stop (fetch : Nat → Option String) (benv : Nat → BatchEnv)
    (stop : Nat → Bool) (k : Nat) :
    ∀ (bs : List (List String)) (i : Nat) (st : VerifierState),
    i ≤ k → stop k = true → (∀ j, i ≤ j → j < k → stop j = false) →
    (workerRunAux fetch benv stop i st bs).map Prod.fst
      = List.range' i (min (k - i) bs.length) := by
  intro bs
  induction bs with
  | nil => intro i st _ _ _; simp [workerRunAux]
  | cons b rest ih =>
    intro i st hik hk hbefore
    by_cases hstop : stop i = true
    · have hike : i = k := by
        by_contra hne
        have hlt : i < k := lt_of_le_of_ne hik hne
        have := hbefore i (Nat.le_refl i) hlt
        rw [this] at hstop
        exact absurd hstop (by simp)
      subst hike
      simp [workerRunAux, hstop]
    · have hlt : i < k := by
        rcases Nat.lt_or_ge i k with h | h
        · exact h
        · have : i = k := Nat.le_antisymm hik h
          subst this
          exact absurd hk hstop
      have hmin : min (k - i) (rest.length + 1) = min (k - (i + 1)) rest.length + 1 := by
        omega
      simp only [workerRunAux, hstop, Bool.false_eq_true, if_false, List.map_cons,
        List.length_cons, hmin, List.range'_succ]
      rw [ih (i + 1) _ hlt hk (fun j hj1 hj2 => hbefore j (by omega) hj2)]

/-- C7 — Stop-between-batches: the worker consults the stop flag before
each batch; when a stop is first observed at batch index k, exactly the
first min(k, number of batches) batches are processed, in order, and no
batch from index k on is ever started, so its identifiers are never
submitted and never receive any result. -/
theorem stop_between_batches (fetch : Nat → Option String) (benv : Nat → BatchEnv)
    (stop : Nat → Bool) (st : VerifierState) (bs : List (List String)) (k : Nat)
    (hk : stop k = true) (hbefore : ∀ j, j < k → stop j = false) :
    (workerRunAux fetch benv stop 0 st bs).map Prod.fst = List.range (min k bs.length)
    ∧ (workerRunAux fetch benv stop 0 st bs).all (fun p => decide (p.1 < k)) = true := by
  have h := workerRunAux_upto_stop fetch benv stop k bs 0 st (Nat.zero_le k) hk
    (fun j _ hj => hbefore j hj)
  constructor
  · rw [h, List.range_eq_range']
    norm_num
  · rw [List.all_eq_true]
    intro p hp
    have hmem : p.1 ∈ (workerRunAux fetch benv stop 0 st bs).map Prod.fst :=
      List.mem_map_of_mem Prod.fst hp
    rw [h, List.mem_range'_1] at hmem
    simp only [decide_eq_true_eq]
    omega

/-- Witness for C7: a stop first seen at batch index two ends a
three-batch job after its first two batches. -/
theorem stop_between_batches_witness :
    (workerRunAux fetchSome (fun _ => envSucB) stopAtTwo 0 stTok
        [["a"], ["b"], ["c"]]).map Prod.fst = List.range (min 2 3) := by
  have h := stop_between_batches fetchSome (fun _ => envSucB) stopAtTwo stTok
    [["a"], ["b"], ["c"]] 2 (by decide) (by decide)
  exact h.1

/-- Dispatching a record that is not dispatchable for id v (pending with
no check token when it names v) leaves v absent from the results and the
poll log untouched as far as v is concerned. -/
theorem handleApiResponse_keeps_missing (poll : String → Nat → String → PollOutcome)
    (v : String) (j : JsonObj) (r : ResMap) (plog : List (String × String))
    (hj : (if getVid j == some v then j.currentStep == some "pending" && j.checkToken.isNone
           else true) = true)
    (hr : findRes r v = none)
    (hlog : plog.all (fun p => !(p.1 == v)) = true) :
    findRes (handleApiResponse poll j r plog).1 v = none
    ∧ (handleApiResponse poll j r plog).2.all (fun p => !(p.1 == v)) = true := by
  cases hg : getVid j with
  | none =>
    simp only [handleApiResponse, hg]
    exact ⟨hr, hlog⟩
  | some vid =>
    simp only [handleApiResponse, hg]
    by_cases hv : vid = v
    · subst hv
      rw [hg, if_pos (by simp : ((some vid == some vid) = true))] at hj
      rw [Bool.and_eq_true] at hj
      obtain ⟨hpend, hnone⟩ := hj
      have hck : j.checkToken = none := by
        cases hcc : j.checkToken with
        | none => rfl
        | some c => rw [hcc] at hnone; simp at hnone
      have hcond : (j.currentStep == some "pending" && j.checkToken.isSome) = false := by
        rw [hck]
        simp
      have hcs : j.currentStep = some "pending" := by
        cases hc : j.currentStep with
        | none => rw [hc] at hpend; simp at hpend
        | some c => rw [hc] at hpend; simp at hpend; rw [hpend]
      have hterm : stepTerminal j = false := by
        simp [stepTerminal, hcs]
      rw [hcond]
      simp only [Bool.false_eq_true, if_false]
      rw [hterm]
      simp only [Bool.false_eq_true, if_false]
      exact ⟨hr, hlog⟩
    · by_cases h1 : (j.currentStep == some "pending" && j.checkToken.isSome) = true
      · rw [if_pos h1]
        constructor
        · rw [findRes_upsert, if_neg hv]
          exact hr
        · rw [List.all_append, Bool.and_eq_true]
          exact ⟨hlog, by simp [hv]⟩
      · rw [if_neg h1]
        by_cases h2 : stepTerminal j = true
        · rw [if_pos h2]
          constructor
          · rw [findRes_upsert, if_neg hv]
            exact hr
          · exact hlog
        · rw [if_neg h2]
          exact ⟨hr, hlog⟩

/-- Over a whole stream in which every record naming v is pending without
a check token, v never enters the results, never reaches the poller, and
the stream raises no exception. -/
theorem processItems_keeps_missing (parse : String → Option JsonObj)
    (poll : String → Nat → String → PollOutcome) (v : String) :
    ∀ (items : List LineItem) (r : ResMap) (plog : List (String × String)),
    items.all (dropsVid parse v) = true →
    findRes r v = none →
    plog.all (fun p => !(p.1 == v)) = true →
    findRes (processItems parse poll items r plog).1 v = none
    ∧ (processItems parse poll items r plog).2.1.all (fun p => !(p.1 == v)) = true
    ∧ (processItems parse poll items r plog).2.2 = none := by
  intro items
  induction items with
  | nil => intro r plog _ hr hlog; exact ⟨hr, hlog, rfl⟩
  | cons it rest ih =>
    intro r plog hall hr hlog
    rw [List.all_cons, Bool.and_eq_true] at hall
    obtain ⟨hit, hrest⟩ := hall
    cases it with
    | exn m => simp [dropsVid] at hit
    | line s =>
      by_cases hs : s = ""
      · rw [show processItems parse poll (.line s :: rest) r plog
            = processItems parse poll rest r plog from by simp [processItems, hs]]
        exact ih r plog hrest hr hlog
      · by_cases hpre : strStartsWith s "data:" = true
        · cases hp : parse (strTrim (strDrop s 5)) with
          | none =>
            rw [show processItems parse poll (.line s :: rest) r plog
                = processItems parse poll rest r plog from by simp [processItems, hs, hpre, hp]]
            exact ih r plog hrest hr hlog
          | some j =>
            rw [show processItems parse poll (.line s :: rest) r plog
                = processItems parse poll rest (handleApiResponse poll j r plog).1
                    (handleApiResponse poll j r plog).2 from by
              simp [processItems, hs, hpre, hp]]
            have hj : (if getVid j == some v then
                j.currentStep == some "pending" && j.checkToken.isNone else true) = true := by
              simp only [dropsVid, hpre, if_true, hp] at hit
              exact hit
            obtain ⟨h1, h2⟩ := handleApiResponse_keeps_missing poll v j r plog hj hr hlog
            exact ih _ _ hrest h1 h2
        · rw [show processItems parse poll (.line s :: rest) r plog
              = processItems parse poll rest r plog from by simp [processItems, hs, hpre]]
          exact ih r plog hrest hr hlog

/-- C10 — Implicit drop of non-dispatchable identifiers: on a
transport-error-free submission (cached token, non-authentication status,
no stream exception) in which every stream record naming identifier v is
pending without a checkToken (records naming other ids or no id at all
are unrestricted), verify_batch returns a map with no entry for v and the
poller is never invoked for v. -/
theorem pending_without_token_dropped (fetch : Nat → Option String) (env : BatchEnv)
    (st : VerifierState) (vids : List String) (v : String) (code : Nat)
    (items : List LineItem)
    (htok : st.csrfToken.isSome = true)
    (hsub : env.firstSubmit = .resp code items)
    (hc1 : code ≠ 403) (hc2 : code ≠ 401)
    (hall : items.all (dropsVid env.parse v) = true) :
    findRes (verifyBatch fetch env st vids).results v = none
    ∧ (verifyBatch fetch env st vids).pollLog.all (fun p => !(p.1 == v)) = true := by
  obtain ⟨tk, ht⟩ := Option.isSome_iff_exists.mp htok
  have hvb : verifyBatch fetch env st vids = verifyBatchSubmit fetch env st vids := by
    unfold verifyBatch; rw [ht]
  have hfin : verifyBatch fetch env st vids = finishStream env st vids items 1 := by
    rw [hvb]
    unfold verifyBatchSubmit
    simp only [hsub]
    rw [if_neg (by simp [hc1, hc2])]
  obtain ⟨h1, h2, h3⟩ := processItems_keeps_missing env.parse env.poll v items [] []
    hall rfl rfl
  rw [hfin]
  unfold finishStream
  rcases hp : processItems env.parse env.poll items [] [] with ⟨r, plog, ex⟩
  rw [hp] at h1 h2 h3
  cases ex with
  | some m => simp at h3
  | none => exact ⟨h1, h2⟩

/-- Witness for C10: the pending-without-token stream for id a leaves a
without any entry and without any poll. -/
theorem pending_without_token_dropped_witness :
    findRes (verifyBatch fetchSome envPendDrop stTok ["a"]).results "a" = none
    ∧ (verifyBatch fetchSome envPendDrop stTok ["a"]).pollLog.all
        (fun p => !(p.1 == "a")) = true :=
  pending_without_token_dropped fetchSome envPendDrop stTok ["a"] "a" 200
    [.line "data: PEND"] (by decide) rfl (by decide) (by decide) (by decide)

/-- The empty results dictionary has only terminal values. -/
theorem allTerminal_nil : allTerminal [] := by
  intro v j h
  simp [findRes] at h

/-- Assignment of a terminal value preserves terminality of all values. -/
theorem allTerminal_upsert (r : ResMap) (k : String) (j : JsonObj)
    (hr : allTerminal r) (hj : isTerminal j = true) : allTerminal (upsert r k j) := by
  intro v j' h
  rw [findRes_upsert] at h
  by_cases hk : k = v
  · rw [if_pos hk] at h
    cases h
    exact hj
  · rw [if_neg hk] at h
    exact hr v j' h

/-- The synthetic error dictionaries are terminal. -/
theorem isTerminal_errJson (m : String) : isTerminal (errJson m) = true := by
  simp [isTerminal, errJson, stepTerminal]

/-- Folding error assignments over a batch preserves terminality. -/
theorem allTerminal_errFold (msg : String) :
    ∀ (vids : List String) (r : ResMap), allTerminal r →
    allTerminal (vids.foldl (fun acc v => upsert acc v (errJson msg)) r) := by
  intro vids
  induction vids with
  | nil => intro r hr; exact hr
  | cons x xs ih =>
    intro r hr
    exact ih _ (allTerminal_upsert r x _ hr (isTerminal_errJson msg))

/-- The all-error dict comprehension has only terminal values. -/
theorem allTerminal_mkErrMap (vids : List String) (msg : String) :
    allTerminal (mkErrMap vids msg) :=
  allTerminal_errFold msg vids [] allTerminal_nil

/-- The exception fill preserves terminality of all values. -/
theorem allTerminal_fillMissing (msg : String) :
    ∀ (vids : List String) (r : ResMap), allTerminal r →
    allTerminal (fillMissing vids msg r) := by
  intro vids
  induction vids with
  | nil => intro r hr; exact hr
  | cons x xs ih =>
    intro r hr
    have step : fillMissing (x :: xs) msg r
        = fillMissing xs msg (if (findRes r x).isSome then r else upsert r x (errJson msg)) := rfl
    rw [step]
    by_cases hx : (findRes r x).isSome
    · rw [if_pos hx]
      exact ih r hr
    · rw [if_neg hx]
      exact ih _ (allTerminal_upsert r x _ hr (isTerminal_errJson msg))

/-- Dispatching any record preserves terminality: a stored terminal
record is terminal and a poll result is always terminal. -/
theorem allTerminal_handle (poll : String → Nat → String → PollOutcome) (j : JsonObj)
    (r : ResMap) (plog : List (String × String))
    (hr : allTerminal r) : allTerminal (handleApiResponse poll j r plog).1 := by
  cases hg : getVid j with
  | none =>
    simp only [handleApiResponse, hg]
    exact hr
  | some vid =>
    simp only [handleApiResponse, hg]
    by_cases h1 : (j.currentStep == some "pending" && j.checkToken.isSome) = true
    · rw [if_pos h1]
      exact allTerminal_upsert r vid _ hr
        (pollLoop_terminal (poll (j.checkToken.getD "")) 60 0 (j.checkToken.getD ""))
    · rw [if_neg h1]
      by_cases h2 : stepTerminal j = true
      · rw [if_pos h2]
        exact allTerminal_upsert r vid j hr (by simp [isTerminal, h2])
      · rw [if_neg h2]
        exact hr

/-- The whole stream loop preserves terminality of all stored values. -/
theorem allTerminal_processItems (parse : String → Option JsonObj)
    (poll : String → Nat → String → PollOutcome) :
    ∀ (items : List LineItem) (r : ResMap) (plog : List (String × String)),
    allTerminal r → allTerminal (processItems parse poll items r plog).1 := by
  intro items
  induction items with
  | nil => intro r plog hr; exact hr
  | cons it rest ih =>
    intro r plog hr
    cases it with
    | exn m => exact hr
    | line s =>
      by_cases hs : s = ""
      · rw [show processItems parse poll (.line s :: rest) r plog
            = processItems parse poll rest r plog from by simp [processItems, hs]]
        exact ih r plog hr
      · by_cases hpre : strStartsWith s "data:" = true
        · cases hp : parse (strTrim (strDrop s 5)) with
          | none =>
            rw [show processItems parse poll (.line s :: rest) r plog
                = processItems parse poll rest r plog from by simp [processItems, hs, hpre, hp]]
            exact ih r plog hr
          | some j =>
            rw [show processItems parse poll (.line s :: rest) r plog
                = processItems parse poll rest (handleApiResponse poll j r plog).1
                    (handleApiResponse poll j r plog).2 from by
              simp [processItems, hs, hpre, hp]]
            exact ih _ _ (allTerminal_handle poll j r plog hr)
        · rw [show processItems parse poll (.line s :: rest) r plog
              = processItems parse poll rest r plog from by simp [processItems, hs, hpre]]
          exact ih r plog hr

/-- The stream tail of verify_batch yields only terminal values. -/
theorem allTerminal_finishStream (env : BatchEnv) (st : VerifierState)
    (vids : List String) (items : List LineItem) (subs : Nat) :
    allTerminal (finishStream env st vids items subs).results := by
  unfold finishStream
  have hr := allTerminal_processItems env.parse env.poll items [] [] allTerminal_nil
  rcases hp : processItems env.parse env.poll items [] [] with ⟨r, plog, ex⟩
  rw [hp] at hr
  cases ex with
  | none => exact hr
  | some m => exact allTerminal_fillMissing m vids r hr

/-- Every value verify_batch ever stores in its returned map is terminal. -/
theorem verifyBatch_allTerminal (fetch : Nat → Option String) (env : BatchEnv)
    (st : VerifierState) (vids : List String) :
    allTerminal (verifyBatch fetch env st vids).results := by
  unfold verifyBatch verifyBatchSubmit
  repeat' split
  all_goals first
    | exact allTerminal_mkErrMap vids _
    | exact allTerminal_fillMissing _ vids [] allTerminal_nil
    | exact allTerminal_finishStream env _ vids _ _

/-- C1 amended — Completion invariant (restricted): every entry of the
map returned by verify_batch carries a terminal status (a success or
error record, or a synthetic error dictionary); an identifier submitted
in the batch receives such an entry when the stream yields a terminal or
pending-with-checkToken record for it or when token acquisition or the
transport fails, but an identifier whose stream records are all
non-dispatchable is absent from the map (see the C10 theorem), so the
unrestricted per-identifier completion claim fails. -/
theorem verify_batch_entries_terminal (fetch : Nat → Option String) (env : BatchEnv)
    (st : VerifierState) (vids : List String) (v : String) (j : JsonObj)
    (h : findRes (verifyBatch fetch env st vids).results v = some j) :
    isTerminal j = true :=
  verifyBatch_allTerminal fetch env st vids v j h

/-- Witness for C1 amended: the entry produced for id a under a failing
token fetch is terminal. -/
theorem verify_batch_entries_terminal_witness :
    isTerminal (errJson "Failed to get CSRF token") = true :=
  verify_batch_entries_terminal fetchNone envSucB stNew ["a"] "a"
    (errJson "Failed to get CSRF token") (by decide)
